import Mathlib

/-!
Shallow embedding of the point-cloud Player (src/data/pointcloud.js).

The Player orchestrates asynchronous frame loads, reconciles them into a
time-ordered sequence and drives playback.  JavaScript numbers that can be
`undefined` or `NaN` are modelled by `JSNum` (exact rationals adjoined with
the two special values; the arithmetic the source performs on timestamps is
subtraction and `<`-comparison, both of which are exact).  Asynchronous
effects are made explicit: issuing a load returns the `(path, meta)` pair
handed to the external loader, a `setTimeout` increments a pending-timer
counter, and delivery of a load result or the firing of a timer are separate
state transitions.  `%` on indices is JavaScript's truncated remainder,
`Int.tmod`.
-/

namespace PointCloud

/-- A JavaScript numeric value as it occurs in the player: a real (here
rational) number, `NaN`, or `undefined`. -/
inductive JSNum where
  | num : ℚ → JSNum
  | nan : JSNum
  | undef : JSNum
  deriving Repr, DecidableEq

/-- JavaScript `<` on numbers: comparisons involving `NaN` or `undefined`
are false. -/
def jsLt : JSNum → JSNum → Bool
  | JSNum.num a, JSNum.num b => decide (a < b)
  | _, _ => false

/-- JavaScript subtraction: any operand that is not a number yields `NaN`
(`undefined` coerces to `NaN`). -/
def jsSub : JSNum → JSNum → JSNum
  | JSNum.num a, JSNum.num b => JSNum.num (a - b)
  | _, _ => JSNum.nan

/-- Whether a value is an actual number (neither `NaN` nor `undefined`). -/
def JSNum.isNum : JSNum → Bool
  | JSNum.num _ => true
  | _ => false

/-- A frame entry of the scene descriptor handed to `loadPointClouds`:
a timestamp and the per-type point clouds.  The clouds collection is a
mapping of type identifier to path (the controller iterates it with
`for..in` and indexes it with string type identifiers such as "color"),
kept here as its list of `(type_identifier, path)` entries; keyed access
models `clouds[type_identifier]` (an absent key is JavaScript
`undefined`). -/
structure FrameSpec where
  timestamp : JSNum
  clouds : List (String × String)
  deriving Repr, DecidableEq

/-- The `length` property the source reads from `clouds`.  A plain object
built from the type-to-path mapping has no `length` property (its keys are
cloud type identifiers), so the read yields JavaScript `undefined`,
modelled as `none`.  Were a cloud type literally named "length", the
property would be that cloud's record, not a number, so the read never
yields a number either way. -/
def cloudsLength (_clouds : List (String × String)) : Option Nat := none

/-- JavaScript loose equality `0 == x` against the possibly-`undefined`
`length` read: `0 == undefined` is false. -/
def jsZeroEq : Option Nat → Bool
  | none => false
  | some n => n == 0

/-- The meta record attached to every issued load
(see `Player.loadPointClouds` and `Player.loadSinglePointCloud`); fields the
source omits in single-cloud mode are `none`/`undef`. -/
structure Meta where
  event_identifier : Nat
  scene : Option String
  index : Option Nat
  num_frames : Nat
  timestamp : JSNum
  path : Option String
  deriving Repr, DecidableEq

/-- A loaded frame as pushed by `pointCloudLoaded`; `points` is the opaque
renderable payload, `duration` is absent until normalization. -/
structure Frame where
  timestamp : JSNum
  path : Option String
  scene : Option String
  points : Nat
  duration : Option JSNum
  deriving Repr, DecidableEq

instance : Inhabited Frame := ⟨⟨JSNum.undef, none, none, 0, none⟩⟩

/-- The mutable state of a `Player` instance.  `pending_timers` counts the
`setTimeout` callbacks armed by `createNextFrameTimer` that have not fired
yet; `displayed` is the payload currently attached to the renderer scene;
`status_log` records the texts passed to the status callback. -/
structure PlayerState where
  event_identifier : Nat
  is_playing : Bool
  loaded : Bool
  frames : List Frame
  current_frame : Option Int
  pending_timers : Nat
  status_log : List String
  displayed : Option Nat
  deriving Repr, DecidableEq

/-- The state the `Player` constructor produces. -/
def initialState : PlayerState :=
  { event_identifier := 0, is_playing := false, loaded := false, frames := []
    current_frame := none, pending_timers := 0, status_log := [], displayed := none }

/-- `compareByTimestamp` of the source: three-way comparison of the
timestamps, `0` when neither is smaller (hence also for `NaN`/`undefined`). -/
def compareByTimestamp (a b : Frame) : Int :=
  if jsLt a.timestamp b.timestamp then -1
  else if jsLt b.timestamp a.timestamp then 1
  else 0

/-- The ordering used by the sort in `normalizeFrames`: the comparator is
non-positive.  JavaScript `Array.prototype.sort` is stable and orders any
two elements so that the comparator of the pair, in result order, is not
positive; stable insertion sort by this relation realizes that contract. -/
def sortLE (a b : Frame) : Prop := compareByTimestamp a b ≤ 0

instance : DecidableRel sortLE :=
  fun a b => inferInstanceAs (Decidable (compareByTimestamp a b ≤ 0))

/-- Second loop of `normalizeTimeStamps`: every frame except the last gets
the distance to its successor as duration, the last frame gets `1.0`. -/
def assignDurations : List Frame → List Frame
  | [] => []
  | [f] => [{ f with duration := some (JSNum.num 1) }]
  | f :: g :: rest =>
      { f with duration := some (jsSub g.timestamp f.timestamp) } ::
        assignDurations (g :: rest)

/-- `Player.normalizeTimeStamps`: subtract the first frame's timestamp from
every frame, then assign durations.  Empty input is returned unchanged. -/
def normalizeTimeStamps (fs : List Frame) : List Frame :=
  match fs with
  | [] => []
  | f0 :: rest =>
      assignDurations
        ((f0 :: rest).map (fun f => { f with timestamp := jsSub f.timestamp f0.timestamp }))

/-- `Player.normalizeFrames`: sort by timestamp, then normalize timestamps. -/
def normalizeFrames (fs : List Frame) : List Frame :=
  normalizeTimeStamps (List.insertionSort sortLE fs)

/-- `Player.status`: publish a status text through the callback. -/
def status (s : PlayerState) (text : String) : PlayerState :=
  { s with status_log := s.status_log ++ [text] }

/-- `Player.pause`: only clears the playing flag; the source never clears a
pending timeout. -/
def pause (s : PlayerState) : PlayerState :=
  { s with is_playing := false }

/-- `Player.reset`: stop playback, drop all frames, bump the session
identifier and detach the displayed cloud. -/
def reset (s : PlayerState) : PlayerState :=
  let s1 := pause s
  { s1 with loaded := false, current_frame := none, frames := []
            event_identifier := s1.event_identifier + 1, displayed := none }

/-- `Player.showCurrentFrame`: publish the frame counter and attach the
current frame's payload to the scene.  Every caller in the source has set
`current_frame` to an index inside `frames`. -/
def showCurrentFrame (s : PlayerState) : PlayerState :=
  match s.current_frame with
  | none => s
  | some i =>
      let frame := s.frames.getD i.toNat default
      let s1 := status s ("Frame " ++ toString (i + 1) ++ " of " ++ toString s.frames.length ++ ".")
      { s1 with displayed := some frame.points }

/-- `Player.nextFrame`: advance the index modulo the frame count (JavaScript
`%` is truncated remainder) and show the frame; a no-op before loading. -/
def nextFrame (s : PlayerState) : PlayerState :=
  match s.current_frame with
  | none => s
  | some i =>
      if !s.loaded then s
      else
        showCurrentFrame { s with current_frame := some (Int.tmod (i + 1) s.frames.length) }

/-- `Player.previousFrame`: retreat the index modulo the frame count and
show the frame; a no-op before loading. -/
def previousFrame (s : PlayerState) : PlayerState :=
  match s.current_frame with
  | none => s
  | some i =>
      if !s.loaded then s
      else
        showCurrentFrame
          { s with current_frame := some (Int.tmod ((s.frames.length : Int) + i - 1) s.frames.length) }

/-- `Player.createNextFrameTimer`: arm one `setTimeout`; only the number of
armed timers is tracked, their delay does not influence the state. -/
def createNextFrameTimer (s : PlayerState) : PlayerState :=
  { s with pending_timers := s.pending_timers + 1 }

/-- `Player.playNextFrameCallback` body: when still playing, advance and
re-arm; otherwise do nothing. -/
def playNextFrameCallback (s : PlayerState) : PlayerState :=
  if !s.is_playing then s
  else createNextFrameTimer (nextFrame s)

/-- Firing of one armed timeout: it is consumed, then
`playNextFrameCallback` runs. -/
def fireTimer (s : PlayerState) : PlayerState :=
  if s.pending_timers = 0 then s
  else playNextFrameCallback { s with pending_timers := s.pending_timers - 1 }

/-- `Player.play`: refuse with `false` on fewer than two frames or before
loading; toggle off via `pause` when already playing; otherwise set the
playing flag, arm the timer and return the new flag. -/
def play (s : PlayerState) : Bool × PlayerState :=
  if s.frames.length < 2 then (false, s)
  else if !s.loaded then (false, s)
  else if s.is_playing then
    let s1 := pause s
    (s1.is_playing, s1)
  else
    let s1 := createNextFrameTimer { s with is_playing := true }
    (s1.is_playing, s1)

/-- `Player.pointCloudLoaded`: drop results of superseded sessions; store
fresh ones; on arrival of the last expected frame normalize, mark loaded and
display the first frame via `nextFrame` from the sentinel index `-1`. -/
def pointCloudLoaded (points : Nat) (meta : Meta) (s : PlayerState) : PlayerState :=
  if s.event_identifier ≠ meta.event_identifier then s
  else
    let s1 := { s with frames :=
      s.frames ++ [{ timestamp := meta.timestamp, path := meta.path
                     scene := meta.scene, points := points, duration := none }] }
    let s2 := status s1
      ("Loaded " ++ toString s1.frames.length ++ " frames of " ++ toString meta.num_frames ++ ".")
    if s2.frames.length = meta.num_frames then
      let s3 := { s2 with frames := normalizeFrames s2.frames }
      let s4 := status s3 ("Ready.")
      let s5 := { s4 with current_frame := some (-1), loaded := true }
      nextFrame s5
    else s2

/-- Delivery of a list of load results, in order, each a payload with its
meta record. -/
def deliver (rs : List (Nat × Meta)) (s : PlayerState) : PlayerState :=
  rs.foldl (fun t r => pointCloudLoaded r.1 r.2 t) s

/-- Result of a call to `loadPointClouds`: the state after the call, the
`(full_path, meta)` pairs handed to the asynchronous loader, and whether the
call aborted with a thrown `TypeError` (reading `path` of the `undefined`
obtained when a frame's clouds lack the requested type). -/
structure LoadOutcome where
  state : PlayerState
  issued : List (String × Meta)
  threw : Bool
  deriving Repr, DecidableEq

/-- The per-frame loop of `Player.loadPointClouds`.  The source guard
`0 == clouds.length` compares `0` with the `undefined` length of the
type-to-path mapping, so it is always false and its status branch is dead;
a frame whose clouds lack the requested type (in particular an empty
mapping) then throws a `TypeError` at `cloud["path"]`; otherwise a meta
record is tagged with the current session and the load is issued. -/
def loadLoop (name type_identifier : String) (total : Nat) :
    List FrameSpec → Nat → PlayerState → List (String × Meta) → LoadOutcome
  | [], _, s, acc => ⟨s, acc, false⟩
  | spec :: rest, index, s, acc =>
      if jsZeroEq (cloudsLength spec.clouds) then
        ⟨status s ("No clouds in frame."), acc, false⟩
      else
        match spec.clouds.lookup type_identifier with
        | none => ⟨s, acc, true⟩
        | some path =>
            let meta : Meta :=
              { event_identifier := s.event_identifier, scene := some name
                index := some index, num_frames := total
                timestamp := spec.timestamp, path := some path }
            let s1 := status s ("Loading point clouds...")
            loadLoop name type_identifier total rest (index + 1) s1
              (acc ++ [("pointclouds/" ++ path, meta)])

/-- `Player.loadPointClouds`: report, reset (superseding any in-flight
session), refuse an empty scene with a status, otherwise run the issue
loop. -/
def loadPointClouds (name : String) (frames : List FrameSpec) (type_identifier : String)
    (s : PlayerState) : LoadOutcome :=
  let s1 := status s ("Loading point clouds.")
  let s2 := reset s1
  if frames.length = 0 then ⟨status s2 ("No frames in scene."), [], false⟩
  else loadLoop name type_identifier frames.length frames 0 s2 []

/-- `Player.loadSinglePointCloud`: reset, then issue one load whose meta
carries only the session identifier and `num_frames = 1`; timestamp, path
and scene stay `undefined`. -/
def loadSinglePointCloud (full_path : String) (s : PlayerState) :
    PlayerState × (String × Meta) :=
  let s1 := reset s
  let meta : Meta :=
    { event_identifier := s1.event_identifier, scene := none, index := none
      num_frames := 1, timestamp := JSNum.undef, path := none }
  (s1, (full_path, meta))

/-- The events a `Player` instance reacts to: the public commands, the
arrival of a load result, and the firing of an armed timeout. -/
inductive PEvent where
  | playE : PEvent
  | pauseE : PEvent
  | nextE : PEvent
  | prevE : PEvent
  | fireE : PEvent
  | resetE : PEvent
  | loadCloudsE : String → List FrameSpec → String → PEvent
  | loadSingleE : String → PEvent
  | cloudLoadedE : Nat → Meta → PEvent
  deriving Repr

/-- One step of the player: the state transformation of each event. -/
def step : PEvent → PlayerState → PlayerState
  | PEvent.playE, s => (play s).2
  | PEvent.pauseE, s => pause s
  | PEvent.nextE, s => nextFrame s
  | PEvent.prevE, s => previousFrame s
  | PEvent.fireE, s => fireTimer s
  | PEvent.resetE, s => reset s
  | PEvent.loadCloudsE name specs tid, s => (loadPointClouds name specs tid s).state
  | PEvent.loadSingleE path, s => (loadSinglePointCloud path s).1
  | PEvent.cloudLoadedE points meta, s => pointCloudLoaded points meta s

/-- The state invariants of the spec: a defined current index requires
`loaded` and lies inside `frames`, and playing requires a loaded sequence of
at least two frames. -/
def Inv (s : PlayerState) : Prop :=
  (match s.current_frame with
   | none => True
   | some i => s.loaded = true ∧ 0 ≤ i ∧ i < (s.frames.length : Int)) ∧
  (s.is_playing = true → s.loaded = true ∧ 2 ≤ s.frames.length)

/-- The frame `pointCloudLoaded` builds from a delivered result. -/
def mkFrameOf (r : Nat × Meta) : Frame :=
  { timestamp := r.2.timestamp, path := r.2.path, scene := r.2.scene
    points := r.1, duration := none }

/-- The loads `loadLoop` issues for a list of frame specs whose requested
type is present, starting at a given index, in a session `e`. -/
def issuedFor (name type_identifier : String) (total e : Nat) :
    List FrameSpec → Nat → List (String × Meta)
  | [], _ => []
  | spec :: rest, index =>
      match spec.clouds.lookup type_identifier with
      | none => []
      | some path =>
          ("pointclouds/" ++ path,
            { event_identifier := e, scene := some name, index := some index
              num_frames := total, timestamp := spec.timestamp, path := some path }) ::
            issuedFor name type_identifier total e rest (index + 1)

/-- An example frame with a numeric timestamp, used in concrete scenarios. -/
def exF (q : ℚ) (p : Nat) : Frame :=
  { timestamp := JSNum.num q, path := some ("x"), scene := some ("s")
    points := p, duration := none }

/-- A two-frame example scene. -/
def demoSpecs : List FrameSpec :=
  [{ timestamp := JSNum.num 5, clouds := [("color", "a")] },
   { timestamp := JSNum.num 3, clouds := [("color", "b")] }]

/-- The outcome of loading the example scene on a fresh player. -/
def demoOutcome : LoadOutcome :=
  loadPointClouds ("sc") demoSpecs ("color") initialState

/-- The player after every issued load of the example scene resolved. -/
def demoLoaded : PlayerState :=
  deliver (demoOutcome.issued.map (fun r => (7, r.2))) demoOutcome.state

@[simp] theorem showCurrentFrame_event_identifier (s : PlayerState) :
    (showCurrentFrame s).event_identifier = s.event_identifier := by
  cases hc : s.current_frame <;> simp [showCurrentFrame, hc, status]

@[simp] theorem showCurrentFrame_loaded (s : PlayerState) :
    (showCurrentFrame s).loaded = s.loaded := by
  cases hc : s.current_frame <;> simp [showCurrentFrame, hc, status]

@[simp] theorem showCurrentFrame_frames (s : PlayerState) :
    (showCurrentFrame s).frames = s.frames := by
  cases hc : s.current_frame <;> simp [showCurrentFrame, hc, status]

@[simp] theorem showCurrentFrame_current_frame (s : PlayerState) :
    (showCurrentFrame s).current_frame = s.current_frame := by
  cases hc : s.current_frame <;> simp [showCurrentFrame, hc, status]

@[simp] theorem showCurrentFrame_is_playing (s : PlayerState) :
    (showCurrentFrame s).is_playing = s.is_playing := by
  cases hc : s.current_frame <;> simp [showCurrentFrame, hc, status]

@[simp] theorem showCurrentFrame_pending_timers (s : PlayerState) :
    (showCurrentFrame s).pending_timers = s.pending_timers := by
  cases hc : s.current_frame <;> simp [showCurrentFrame, hc, status]

@[simp] theorem nextFrame_event_identifier (s : PlayerState) :
    (nextFrame s).event_identifier = s.event_identifier := by
  cases hc : s.current_frame <;> simp [nextFrame, hc]
  split <;> simp

@[simp] theorem nextFrame_loaded (s : PlayerState) :
    (nextFrame s).loaded = s.loaded := by
  cases hc : s.current_frame <;> simp [nextFrame, hc]
  split <;> simp

@[simp] theorem nextFrame_frames (s : PlayerState) :
    (nextFrame s).frames = s.frames := by
  cases hc : s.current_frame <;> simp [nextFrame, hc]
  split <;> simp

@[simp] theorem nextFrame_is_playing (s : PlayerState) :
    (nextFrame s).is_playing = s.is_playing := by
  cases hc : s.current_frame <;> simp [nextFrame, hc]
  split <;> simp

@[simp] theorem nextFrame_pending_timers (s : PlayerState) :
    (nextFrame s).pending_timers = s.pending_timers := by
  cases hc : s.current_frame <;> simp [nextFrame, hc]
  split <;> simp

@[simp] theorem previousFrame_event_identifier (s : PlayerState) :
    (previousFrame s).event_identifier = s.event_identifier := by
  cases hc : s.current_frame <;> simp [previousFrame, hc]
  split <;> simp

@[simp] theorem previousFrame_loaded (s : PlayerState) :
    (previousFrame s).loaded = s.loaded := by
  cases hc : s.current_frame <;> simp [previousFrame, hc]
  split <;> simp

@[simp] theorem previousFrame_frames (s : PlayerState) :
    (previousFrame s).frames = s.frames := by
  cases hc : s.current_frame <;> simp [previousFrame, hc]
  split <;> simp

@[simp] theorem previousFrame_is_playing (s : PlayerState) :
    (previousFrame s).is_playing = s.is_playing := by
  cases hc : s.current_frame <;> simp [previousFrame, hc]
  split <;> simp

theorem pointCloudLoaded_stale (s : PlayerState) (points : Nat) (meta : Meta)
    (h : meta.event_identifier ≠ s.event_identifier) :
    pointCloudLoaded points meta s = s := by
  unfold pointCloudLoaded
  rw [if_pos (fun hh => h hh.symm)]

@[simp] theorem pointCloudLoaded_event_identifier (s : PlayerState) (points : Nat)
    (meta : Meta) :
    (pointCloudLoaded points meta s).event_identifier = s.event_identifier := by
  unfold pointCloudLoaded
  split
  · rfl
  · simp only [status]
    split <;> simp [status]

/-- C1. A load result tagged with an `event_identifier` different from the
player's current one is discarded without any state change, and delivering a
sequence of results is equivalent to delivering only the results whose tag
matches the current session, so no stale frame ever enters `frames`. -/
theorem stale_results_discarded :
    (∀ (s : PlayerState) (points : Nat) (meta : Meta),
        meta.event_identifier ≠ s.event_identifier →
        pointCloudLoaded points meta s = s) ∧
    (∀ (rs : List (Nat × Meta)) (s : PlayerState),
        deliver rs s =
          deliver (rs.filter (fun r => r.2.event_identifier == s.event_identifier)) s) := by
  refine ⟨pointCloudLoaded_stale, ?_⟩
  intro rs
  induction rs with
  | nil => intro s; rfl
  | cons r rest ih =>
      intro s
      by_cases h : r.2.event_identifier = s.event_identifier
      · have hb : (r.2.event_identifier == s.event_identifier) = true := by simp [h]
        have hfilter :
            (r :: rest).filter (fun r => r.2.event_identifier == s.event_identifier) =
              r :: rest.filter (fun r => r.2.event_identifier == s.event_identifier) := by
          simp [List.filter_cons, hb]
        rw [hfilter]
        show deliver rest (pointCloudLoaded r.1 r.2 s) =
          deliver (rest.filter (fun r => r.2.event_identifier == s.event_identifier))
            (pointCloudLoaded r.1 r.2 s)
        rw [ih (pointCloudLoaded r.1 r.2 s)]
        simp [pointCloudLoaded_event_identifier]

      · have hb : (r.2.event_identifier == s.event_identifier) = false := by simp [h]
        have hfilter :
            (r :: rest).filter (fun r => r.2.event_identifier == s.event_identifier) =
              rest.filter (fun r => r.2.event_identifier == s.event_identifier) := by
          simp [List.filter_cons, hb]
        rw [hfilter]
        show deliver rest (pointCloudLoaded r.1 r.2 s) = _
        rw [pointCloudLoaded_stale s r.1 r.2 h]
        exact ih s

/-- Witness for C1 at a concrete stale result and a concrete delivery
sequence. -/
theorem stale_results_discarded_witness :
    pointCloudLoaded 9 { event_identifier := 0, scene := none, index := none
                         num_frames := 1, timestamp := JSNum.undef, path := none }
        { initialState with event_identifier := 3 } =
      { initialState with event_identifier := 3 } ∧
    deliver [] initialState = deliver (List.filter (fun r => r.2.event_identifier == initialState.event_identifier) []) initialState := by
  exact ⟨stale_results_discarded.1 _ 9 _ (by decide),
         stale_results_discarded.2 [] initialState⟩

theorem play_noop (s : PlayerState) (h : s.frames.length < 2 ∨ s.loaded = false) :
    play s = (false, s) := by
  rcases h with h | h
  · simp [play, h]
  · by_cases h2 : s.frames.length < 2 <;> simp [play, h, h2]

theorem play_start (s : PlayerState) (hl : s.loaded = true)
    (hn : 2 ≤ s.frames.length) (hp : s.is_playing = false) :
    play s = (true, createNextFrameTimer { s with is_playing := true }) := by
  have h2 : ¬s.frames.length < 2 := by omega
  simp [play, h2, hl, hp, createNextFrameTimer]

theorem play_stop (s : PlayerState) (hl : s.loaded = true)
    (hn : 2 ≤ s.frames.length) (hp : s.is_playing = true) :
    play s = (false, pause s) := by
  have h2 : ¬s.frames.length < 2 := by omega
  simp [play, h2, hl, hp, pause]

/-- C4. `play` returns `false` and leaves the state unchanged on fewer than
two frames or before loading; from a loaded, paused state with at least two
frames it sets the playing flag (arming one timer) and returns `true`; from
a playing state it performs `pause` and returns the new, false flag. -/
theorem play_semantics (s : PlayerState) :
    (s.frames.length < 2 ∨ s.loaded = false → play s = (false, s)) ∧
    (s.loaded = true → 2 ≤ s.frames.length → s.is_playing = false →
      play s = (true, createNextFrameTimer { s with is_playing := true })) ∧
    (s.loaded = true → 2 ≤ s.frames.length → s.is_playing = true →
      play s = (false, pause s)) :=
  ⟨play_noop s, fun hl hn hp => play_start s hl hn hp, fun hl hn hp => play_stop s hl hn hp⟩

/-- Witness for C4: the no-op branch on a fresh player, the start branch on
the loaded example player, and the toggle branch right after starting. -/
theorem play_semantics_witness :
    play initialState = (false, initialState) ∧
    play demoLoaded = (true, createNextFrameTimer { demoLoaded with is_playing := true }) ∧
    play (play demoLoaded).2 = (false, pause (play demoLoaded).2) :=
  ⟨(play_semantics initialState).1 (Or.inl (by decide)),
   (play_semantics demoLoaded).2.1 (by decide) (by decide) (by decide),
   (play_semantics (play demoLoaded).2).2.2 (by decide) (by decide) (by decide)⟩

/-- C7. Loading a scene with an empty frame list reports
"No frames in scene.", issues no load, and the player stays unloaded. -/
theorem empty_scene_rejected (name type_identifier : String) (s : PlayerState) :
    (loadPointClouds name [] type_identifier s).issued = [] ∧
    (loadPointClouds name [] type_identifier s).threw = false ∧
    (loadPointClouds name [] type_identifier s).state.loaded = false ∧
    (loadPointClouds name [] type_identifier s).state.status_log =
      s.status_log ++ [("Loading point clouds."), ("No frames in scene.")] := by
  simp [loadPointClouds, status, reset, pause]

/-- C10. A single-cloud load that resolves in its own session leaves the
player loaded with exactly one frame at index 0 and duration `1.0`; because
the meta record carries no timestamp, path or scene, the frame's normalized
timestamp is `NaN` (`undefined - undefined`) and its path and scene are
`undefined`. -/
theorem single_cloud_load (full_path : String) (s : PlayerState) (points : Nat) :
    (pointCloudLoaded points (loadSinglePointCloud full_path s).2.2
        (loadSinglePointCloud full_path s).1).loaded = true ∧
    (pointCloudLoaded points (loadSinglePointCloud full_path s).2.2
        (loadSinglePointCloud full_path s).1).frames =
      [{ timestamp := JSNum.nan, path := none, scene := none
         points := points, duration := some (JSNum.num 1) }] ∧
    (pointCloudLoaded points (loadSinglePointCloud full_path s).2.2
        (loadSinglePointCloud full_path s).1).current_frame = some 0 ∧
    (pointCloudLoaded points (loadSinglePointCloud full_path s).2.2
        (loadSinglePointCloud full_path s).1).displayed = some points := by
  simp [loadSinglePointCloud, reset, pause, pointCloudLoaded, status,
        normalizeFrames, normalizeTimeStamps, assignDurations, jsSub,
        List.insertionSort, List.orderedInsert, nextFrame, showCurrentFrame]

/-- Counterexample to C3 as stated: from the loaded example player, calling
`play` twice leaves the player paused, yet the timeout armed by the first
call is still pending — `pause` never cancels it. -/
theorem play_twice_pending_timer_cex :
    (play (play demoLoaded).2).2.is_playing = false ∧
    (play (play demoLoaded).2).2.pending_timers = 1 := by decide

/-- C3 as amended: `pause` does not cancel the armed timeout, it only clears
the playing flag; after `play` twice in succession from a loaded, paused,
timer-free state the player is paused with exactly one pending timer, and
that timer is inert — when it fires, the state is unchanged except that the
timer count returns to zero. -/
theorem pause_soft_cancel_amended (s : PlayerState) (hl : s.loaded = true)
    (hn : 2 ≤ s.frames.length) (hp : s.is_playing = false)
    (ht : s.pending_timers = 0) :
    (play (play s).2).2.is_playing = false ∧
    (play (play s).2).2.pending_timers = 1 ∧
    fireTimer (play (play s).2).2 =
      { (play (play s).2).2 with pending_timers := 0 } := by
  rw [play_start s hl hn hp]
  have h1 : (true, createNextFrameTimer { s with is_playing := true }).2 =
      createNextFrameTimer { s with is_playing := true } := rfl
  rw [h1]
  rw [play_stop (createNextFrameTimer { s with is_playing := true })
        (by simp [createNextFrameTimer, hl]) (by simp [createNextFrameTimer, hn])
        (by simp [createNextFrameTimer])]
  refine ⟨rfl, by simp [createNextFrameTimer, pause, ht], ?_⟩
  simp [fireTimer, createNextFrameTimer, pause, ht, playNextFrameCallback]

/-- Witness for the amended C3 at the loaded example player. -/
theorem pause_soft_cancel_amended_witness :
    (play (play demoLoaded).2).2.is_playing = false ∧
    (play (play demoLoaded).2).2.pending_timers = 1 ∧
    fireTimer (play (play demoLoaded).2).2 =
      { (play (play demoLoaded).2).2 with pending_timers := 0 } :=
  pause_soft_cancel_amended demoLoaded (by decide) (by decide) (by decide) (by decide)

theorem emod_succ (a N : Int) : (a % N + 1) % N = (a + 1) % N := by
  conv_rhs => rw [Int.add_emod]
  conv_lhs => rw [Int.add_emod]
  rw [Int.emod_emod_of_dvd a dvd_rfl]

theorem emod_pred (a N : Int) : (a % N - 1) % N = (a - 1) % N := by
  conv_rhs => rw [Int.sub_emod]
  conv_lhs => rw [Int.sub_emod]
  rw [Int.emod_emod_of_dvd a dvd_rfl]

theorem nextFrame_current (s : PlayerState) (i : Int) (hc : s.current_frame = some i)
    (hl : s.loaded = true) :
    (nextFrame s).current_frame = some (Int.tmod (i + 1) s.frames.length) := by
  simp [nextFrame, hc, hl]

theorem previousFrame_current (s : PlayerState) (i : Int) (hc : s.current_frame = some i)
    (hl : s.loaded = true) :
    (previousFrame s).current_frame =
      some (Int.tmod ((s.frames.length : Int) + i - 1) s.frames.length) := by
  simp [previousFrame, hc, hl]

theorem nextFrame_iterate (s : PlayerState) (i : Int) (hl : s.loaded = true)
    (hc : s.current_frame = some i) (h0 : 0 ≤ i) (hi : i < (s.frames.length : Int)) :
    ∀ k : Nat, (nextFrame^[k] s).loaded = true ∧ (nextFrame^[k] s).frames = s.frames ∧
      (nextFrame^[k] s).current_frame = some ((i + k) % (s.frames.length : Int)) := by
  have hNpos : (0 : Int) < (s.frames.length : Int) := lt_of_le_of_lt h0 hi
  have hN0 : ((s.frames.length : Int)) ≠ 0 := ne_of_gt hNpos
  intro k
  induction k with
  | zero =>
      refine ⟨hl, rfl, ?_⟩
      simpa [Int.emod_eq_of_lt h0 hi] using hc
  | succ k ih =>
      obtain ⟨ihl, ihf, ihc⟩ := ih
      rw [Function.iterate_succ_apply']
      refine ⟨by simp [ihl], by simp [ihf], ?_⟩
      rw [nextFrame_current (nextFrame^[k] s) _ ihc ihl, ihf]
      have hnn : 0 ≤ (i + k) % (s.frames.length : Int) + 1 := by
        have := Int.emod_nonneg (i + k) hN0
        omega
      rw [Int.tmod_eq_emod hnn (le_of_lt hNpos)]
      rw [emod_succ]
      norm_num [add_assoc]

/-- C8. With a loaded player whose current index is in range, `nextFrame`
and `previousFrame` move the index modulo the frame count: `nextFrame`
applied `N` times from index 0 returns to index 0, `previousFrame` from
index 0 yields `N - 1`, and `previousFrame` after `nextFrame` restores the
index. -/
theorem frame_navigation (s : PlayerState) (i : Int) (hl : s.loaded = true)
    (hc : s.current_frame = some i) (h0 : 0 ≤ i) (hi : i < (s.frames.length : Int)) :
    (i = 0 → (nextFrame^[s.frames.length] s).current_frame = some 0) ∧
    (i = 0 → (previousFrame s).current_frame = some ((s.frames.length : Int) - 1)) ∧
    (previousFrame (nextFrame s)).current_frame = some i := by
  have hNpos : (0 : Int) < (s.frames.length : Int) := lt_of_le_of_lt h0 hi
  have hN0 : ((s.frames.length : Int)) ≠ 0 := ne_of_gt hNpos
  refine ⟨?_, ?_, ?_⟩
  · intro h00
    have h := (nextFrame_iterate s i hl hc h0 hi s.frames.length).2.2
    rw [h, h00]
    simp
  · intro h00
    rw [previousFrame_current s i hc hl, h00]
    have h1 : (0 : Int) ≤ (s.frames.length : Int) + 0 - 1 := by omega
    rw [Int.tmod_eq_emod h1 (le_of_lt hNpos)]
    have h2 : (s.frames.length : Int) + 0 - 1 = (s.frames.length : Int) - 1 := by ring
    rw [h2, Int.emod_eq_of_lt (by omega) (by omega)]
  · have ht := nextFrame_current s i hc hl
    have htl : (nextFrame s).loaded = true := by simp [hl]
    have htf : (nextFrame s).frames = s.frames := by simp
    have hj : Int.tmod (i + 1) s.frames.length = (i + 1) % (s.frames.length : Int) :=
      Int.tmod_eq_emod (by omega) (le_of_lt hNpos)
    rw [previousFrame_current (nextFrame s) _ ht htl, htf]
    have hjnn : 0 ≤ (i + 1) % (s.frames.length : Int) := Int.emod_nonneg (i + 1) hN0
    have harg : (0 : Int) ≤
        (s.frames.length : Int) + Int.tmod (i + 1) s.frames.length - 1 := by
      rw [hj]; omega
    rw [Int.tmod_eq_emod harg (le_of_lt hNpos), hj]
    have hsplit : (s.frames.length : Int) + (i + 1) % (s.frames.length : Int) - 1 =
        ((i + 1) % (s.frames.length : Int) - 1) + (s.frames.length : Int) * 1 := by ring
    rw [hsplit, Int.add_mul_emod_self_left, emod_pred]
    have h3 : i + 1 - 1 = i := by ring
    rw [h3, Int.emod_eq_of_lt h0 hi]

/-- Witness for C8 at the loaded example player (index 0 of 2 frames). -/
theorem frame_navigation_witness :
    (nextFrame^[demoLoaded.frames.length] demoLoaded).current_frame = some 0 ∧
    (previousFrame demoLoaded).current_frame = some ((demoLoaded.frames.length : Int) - 1) ∧
    (previousFrame (nextFrame demoLoaded)).current_frame = some 0 :=
  ⟨(frame_navigation demoLoaded 0 (by decide) (by decide) (by decide) (by decide)).1 rfl,
   (frame_navigation demoLoaded 0 (by decide) (by decide) (by decide) (by decide)).2.1 rfl,
   (frame_navigation demoLoaded 0 (by decide) (by decide) (by decide) (by decide)).2.2⟩

theorem jsLt_irrefl (x : JSNum) : jsLt x x = false := by
  cases x <;> simp [jsLt]

theorem sortLE_refl (a : Frame) : sortLE a a := by
  simp [sortLE, compareByTimestamp, jsLt_irrefl]

theorem sortLE_total (a b : Frame) : sortLE a b ∨ sortLE b a := by
  unfold sortLE compareByTimestamp
  by_cases h1 : jsLt a.timestamp b.timestamp
  · left; simp [h1]
  · by_cases h2 : jsLt b.timestamp a.timestamp
    · right; simp [h2]
    · left; simp [h1, h2]

theorem isNum_exists {x : JSNum} (h : x.isNum = true) : ∃ q : ℚ, x = JSNum.num q := by
  cases x with
  | num q => exact ⟨q, rfl⟩
  | nan => simp [JSNum.isNum] at h
  | undef => simp [JSNum.isNum] at h

theorem sortLE_num_iff {a b : Frame} {p q : ℚ} (ha : a.timestamp = JSNum.num p)
    (hb : b.timestamp = JSNum.num q) : sortLE a b ↔ p ≤ q := by
  unfold sortLE compareByTimestamp
  rw [ha, hb]
  rcases lt_trichotomy p q with h | h | h
  · simp [jsLt, h, le_of_lt h]
  · subst h
    simp [jsLt, lt_irrefl]
  · simp [jsLt, h, lt_asymm h, not_le.mpr h]

theorem sortLE_trans_num {a b c : Frame} (ha : a.timestamp.isNum = true)
    (hb : b.timestamp.isNum = true) (hc : c.timestamp.isNum = true)
    (hab : sortLE a b) (hbc : sortLE b c) : sortLE a c := by
  obtain ⟨p, hp⟩ := isNum_exists ha
  obtain ⟨q, hq⟩ := isNum_exists hb
  obtain ⟨r, hr⟩ := isNum_exists hc
  rw [sortLE_num_iff hp hq] at hab
  rw [sortLE_num_iff hq hr] at hbc
  rw [sortLE_num_iff hp hr]
  exact le_trans hab hbc

theorem sorted_orderedInsert_num (a : Frame) (l : List Frame)
    (ha : a.timestamp.isNum = true) (hl : ∀ f ∈ l, f.timestamp.isNum = true)
    (hs : List.Sorted sortLE l) : List.Sorted sortLE (List.orderedInsert sortLE a l) := by
  induction l with
  | nil => exact List.sorted_singleton a
  | cons b t ih =>
      rw [List.orderedInsert]
      by_cases hab : sortLE a b
      · rw [if_pos hab, List.sorted_cons]
        refine ⟨?_, hs⟩
        intro c hc
        rcases List.mem_cons.mp hc with rfl | hct
        · exact hab
        · exact sortLE_trans_num ha (hl b (List.mem_cons_self b t))
            (hl c (List.mem_cons_of_mem b hct)) hab (List.rel_of_sorted_cons hs c hct)
      · rw [if_neg hab, List.sorted_cons]
        constructor
        · intro c hc
          rcases (List.mem_orderedInsert sortLE).mp hc with rfl | hct
          · rcases sortLE_total c b with h | h
            · exact absurd h hab
            · exact h
          · exact List.rel_of_sorted_cons hs c hct
        · exact ih (fun f hf => hl f (List.mem_cons_of_mem b hf)) hs.of_cons

theorem sorted_insertionSort_num (l : List Frame)
    (h : ∀ f ∈ l, f.timestamp.isNum = true) :
    List.Sorted sortLE (List.insertionSort sortLE l) := by
  induction l with
  | nil => exact List.sorted_nil
  | cons a t ih =>
      rw [List.insertionSort]
      refine sorted_orderedInsert_num a _ (h a (List.mem_cons_self a t)) ?_ ?_
      · intro f hf
        exact h f (List.mem_cons_of_mem a ((List.perm_insertionSort sortLE t).subset hf))
      · exact ih (fun f hf => h f (List.mem_cons_of_mem a hf))

theorem assignDurations_length : ∀ l : List Frame, (assignDurations l).length = l.length
  | [] => rfl
  | [_] => rfl
  | _ :: g :: rest => by
      have ih := assignDurations_length (g :: rest)
      simp only [assignDurations, List.length_cons] at ih ⊢
      omega

theorem assignDurations_map_timestamp : ∀ l : List Frame,
    (assignDurations l).map (fun f => f.timestamp) = l.map (fun f => f.timestamp)
  | [] => rfl
  | [_] => rfl
  | f :: g :: rest => by
      have ih := assignDurations_map_timestamp (g :: rest)
      simp only [assignDurations, List.map_cons] at ih ⊢
      rw [ih]

theorem assignDurations_getElem_timestamp (l : List Frame) (i : Nat) :
    ((assignDurations l)[i]?).map (fun f => f.timestamp) =
      (l[i]?).map (fun f => f.timestamp) := by
  calc ((assignDurations l)[i]?).map (fun f => f.timestamp)
      = ((assignDurations l).map (fun f => f.timestamp))[i]? :=
        (List.getElem?_map _ _ i).symm
    _ = (l.map (fun f => f.timestamp))[i]? := by rw [assignDurations_map_timestamp]
    _ = (l[i]?).map (fun f => f.timestamp) := List.getElem?_map _ _ i

theorem assignDurations_headTimestamp : ∀ l : List Frame,
    ((assignDurations l).head?).map (fun f => f.timestamp) =
      (l.head?).map (fun f => f.timestamp)
  | [] => rfl
  | [_] => rfl
  | _ :: _ :: _ => rfl

theorem assignDurations_headPoints : ∀ l : List Frame,
    ((assignDurations l).head?).map (fun f => f.points) =
      (l.head?).map (fun f => f.points)
  | [] => rfl
  | [_] => rfl
  | _ :: _ :: _ => rfl

theorem assignDurations_durationAt :
    ∀ (l : List Frame) (i : Nat) (fi fi1 : Frame), l[i]? = some fi →
      l[i + 1]? = some fi1 →
      ((assignDurations l)[i]?).map (fun f => f.duration) =
        some (some (jsSub fi1.timestamp fi.timestamp))
  | [], _, _, _, h, _ => by simp at h
  | [_], i, _, _, _, h1 => by
      cases i <;> simp at h1
  | f :: g :: rest, 0, fi, fi1, h, h1 => by
      simp only [List.getElem?_cons_zero, Option.some.injEq] at h
      simp only [List.getElem?_cons_succ, List.getElem?_cons_zero, Option.some.injEq] at h1
      subst h
      subst h1
      simp [assignDurations]
  | _ :: g :: rest, i + 1, fi, fi1, h, h1 => by
      have ih := assignDurations_durationAt (g :: rest) i fi fi1
        (by simpa using h) (by simpa using h1)
      simpa [assignDurations] using ih

theorem assignDurations_lastDuration :
    ∀ (l : List Frame) (j : Nat) (fj : Frame), j + 1 = l.length →
      (assignDurations l)[j]? = some fj → fj.duration = some (JSNum.num 1)
  | [], j, _, hj, _ => by simp at hj
  | [f], j, fj, hj, h => by
      have hj0 : j = 0 := by
        simp only [List.length_cons, List.length_nil] at hj
        omega
      subst hj0
      simp only [assignDurations, List.getElem?_cons_zero, Option.some.injEq] at h
      rw [← h]
  | _ :: g :: rest, j, fj, hj, h => by
      cases j with
      | zero => simp at hj
      | succ j' =>
          have hj' : j' + 1 = (g :: rest).length := by
            simp only [List.length_cons] at hj ⊢
            omega
          have h' : (assignDurations (g :: rest))[j']? = some fj := by
            simpa [assignDurations] using h
          exact assignDurations_lastDuration (g :: rest) j' fj hj' h'

theorem sorted_congr_map_timestamp {l m : List Frame}
    (h : l.map (fun f => f.timestamp) = m.map (fun f => f.timestamp))
    (hs : List.Sorted sortLE l) : List.Sorted sortLE m := by
  have h1 : List.Pairwise
      (fun x y : JSNum =>
        (if jsLt x y then (-1 : Int) else if jsLt y x then 1 else 0) ≤ 0)
      (l.map (fun f => f.timestamp)) := List.pairwise_map.mpr hs
  rw [h] at h1
  have h2 : List.Pairwise
      (fun a b : Frame =>
        (if jsLt a.timestamp b.timestamp then (-1 : Int)
         else if jsLt b.timestamp a.timestamp then 1 else 0) ≤ 0) m :=
    List.pairwise_map.mp h1
  exact h2

theorem length_normalizeTimeStamps (l : List Frame) :
    (normalizeTimeStamps l).length = l.length := by
  cases l with
  | nil => rfl
  | cons f0 rest =>
      simp only [normalizeTimeStamps, assignDurations_length, List.length_map]

theorem length_normalizeFrames (l : List Frame) :
    (normalizeFrames l).length = l.length := by
  rw [normalizeFrames, length_normalizeTimeStamps, List.length_insertionSort]

theorem mem_insertionSort {f : Frame} {l : List Frame} :
    f ∈ List.insertionSort sortLE l ↔ f ∈ l :=
  (List.perm_insertionSort sortLE l).mem_iff

theorem sorted_normalizeFrames (fs : List Frame)
    (hnum : ∀ f ∈ fs, f.timestamp.isNum = true) :
    List.Sorted sortLE (normalizeFrames fs) := by
  unfold normalizeFrames normalizeTimeStamps
  cases hs : List.insertionSort sortLE fs with
  | nil => exact List.sorted_nil
  | cons f0 rest =>
      have hnum2 : ∀ f ∈ f0 :: rest, f.timestamp.isNum = true := by
        intro f hf
        exact hnum f ((List.perm_insertionSort sortLE fs).subset (hs ▸ hf))
      have hf0 : f0.timestamp.isNum = true := hnum2 f0 (List.mem_cons_self f0 rest)
      obtain ⟨c, hc⟩ := isNum_exists hf0
      have sorted0 : List.Sorted sortLE (f0 :: rest) := hs ▸ sorted_insertionSort_num fs hnum
      have sorted1 : List.Sorted sortLE
          ((f0 :: rest).map (fun f => { f with timestamp := jsSub f.timestamp f0.timestamp })) := by
        rw [List.Sorted, List.pairwise_map]
        refine List.Pairwise.imp_of_mem ?_ sorted0
        intro a b hma hmb hab
        obtain ⟨p, hp⟩ := isNum_exists (hnum2 a hma)
        obtain ⟨q, hq⟩ := isNum_exists (hnum2 b hmb)
        have hab2 : p ≤ q := (sortLE_num_iff hp hq).mp hab
        have hsa : ({ a with timestamp := jsSub a.timestamp f0.timestamp } : Frame).timestamp =
            JSNum.num (p - c) := by simp [hp, hc, jsSub]
        have hsb : ({ b with timestamp := jsSub b.timestamp f0.timestamp } : Frame).timestamp =
            JSNum.num (q - c) := by simp [hq, hc, jsSub]
        exact (sortLE_num_iff hsa hsb).mpr (by linarith)
      exact sorted_congr_map_timestamp
        (assignDurations_map_timestamp _).symm sorted1

theorem normalizeFrames_cons (fs : List Frame) (f0 : Frame) (rest : List Frame)
    (hs : List.insertionSort sortLE fs = f0 :: rest) :
    normalizeFrames fs =
      assignDurations ((f0 :: rest).map
        (fun f => { f with timestamp := jsSub f.timestamp f0.timestamp })) := by
  rw [normalizeFrames, hs]
  rfl

theorem insertionSort_ne_nil (fs : List Frame) (hne : fs ≠ []) :
    List.insertionSort sortLE fs ≠ [] := by
  intro h
  apply hne
  have hl := List.length_insertionSort sortLE fs
  rw [h] at hl
  exact List.eq_nil_of_length_eq_zero hl.symm

theorem head_timestamp_normalizeFrames (fs : List Frame) (hne : fs ≠ [])
    (hnum : ∀ f ∈ fs, f.timestamp.isNum = true) (f0 : Frame)
    (h0 : (normalizeFrames fs).head? = some f0) :
    f0.timestamp = JSNum.num 0 := by
  cases hs : List.insertionSort sortLE fs with
  | nil => exact absurd hs (insertionSort_ne_nil fs hne)
  | cons a rest =>
      have heq := normalizeFrames_cons fs a rest hs
      have hmem : a ∈ fs :=
        (List.perm_insertionSort sortLE fs).subset (hs ▸ List.mem_cons_self a rest)
      obtain ⟨c, hc⟩ := isNum_exists (hnum a hmem)
      rw [heq] at h0
      have hts := assignDurations_headTimestamp
        ((a :: rest).map (fun f => { f with timestamp := jsSub f.timestamp a.timestamp }))
      rw [h0] at hts
      simp only [List.map_cons, List.head?_cons, Option.map_some', Option.some.injEq] at hts
      rw [hts]
      simp [hc, jsSub]

/-- C2. For every non-empty frame list with numeric timestamps,
`normalizeFrames` preserves the length, sorts ascending by timestamp,
rebases the first timestamp to `0`, sets every duration to the distance to
the successor and the last duration to `1.0`; in particular, timestamps
`[5, 3, 9]` yield rebased timestamps `[0, 2, 6]` with durations
`[2, 4, 1.0]`. -/
theorem normalize_spec (fs : List Frame) (hne : fs ≠ [])
    (hnum : ∀ f ∈ fs, f.timestamp.isNum = true) :
    (normalizeFrames fs).length = fs.length ∧
    List.Sorted sortLE (normalizeFrames fs) ∧
    (∀ f0 : Frame, (normalizeFrames fs).head? = some f0 →
      f0.timestamp = JSNum.num 0) ∧
    (∀ (i : Nat) (fi fi1 : Frame), (normalizeFrames fs)[i]? = some fi →
      (normalizeFrames fs)[i + 1]? = some fi1 →
      fi.duration = some (jsSub fi1.timestamp fi.timestamp)) ∧
    (∀ (j : Nat) (fj : Frame), j + 1 = (normalizeFrames fs).length →
      (normalizeFrames fs)[j]? = some fj → fj.duration = some (JSNum.num 1)) ∧
    normalizeFrames [exF 5 10, exF 3 11, exF 9 12] =
      [{ timestamp := JSNum.num 0, path := some ("x"), scene := some ("s")
         points := 11, duration := some (JSNum.num 2) },
       { timestamp := JSNum.num 2, path := some ("x"), scene := some ("s")
         points := 10, duration := some (JSNum.num 4) },
       { timestamp := JSNum.num 6, path := some ("x"), scene := some ("s")
         points := 12, duration := some (JSNum.num 1) }] := by
  refine ⟨length_normalizeFrames fs, sorted_normalizeFrames fs hnum,
          head_timestamp_normalizeFrames fs hne hnum, ?_, ?_, by
            norm_num [normalizeFrames, normalizeTimeStamps, assignDurations, exF,
                      jsSub, jsLt, sortLE, compareByTimestamp, List.insertionSort,
                      List.orderedInsert]⟩
  · intro i fi fi1 h h1
    cases hs : List.insertionSort sortLE fs with
    | nil => exact absurd hs (insertionSort_ne_nil fs hne)
    | cons a rest =>
        have heq := normalizeFrames_cons fs a rest hs
        rw [heq] at h h1
        set X := (a :: rest).map
          (fun f => { f with timestamp := jsSub f.timestamp a.timestamp }) with hX
        have hilen : i < X.length := by
          have := (List.getElem?_eq_some_iff.mp h).1
          rw [assignDurations_length] at this
          exact this
        have hi1len : i + 1 < X.length := by
          have := (List.getElem?_eq_some_iff.mp h1).1
          rw [assignDurations_length] at this
          exact this
        obtain ⟨xi, hxi⟩ : ∃ xi, X[i]? = some xi :=
          ⟨X[i], List.getElem?_eq_getElem hilen⟩
        obtain ⟨xi1, hxi1⟩ : ∃ xi1, X[i + 1]? = some xi1 :=
          ⟨X[i + 1], List.getElem?_eq_getElem hi1len⟩
        have hdur := assignDurations_durationAt X i xi xi1 hxi hxi1
        rw [h] at hdur
        simp only [Option.map_some', Option.some.injEq] at hdur
        have hts : some fi.timestamp = some xi.timestamp := by
          have h2 := assignDurations_getElem_timestamp X i
          rw [h, hxi] at h2
          simpa using h2
        have hts1 : some fi1.timestamp = some xi1.timestamp := by
          have h2 := assignDurations_getElem_timestamp X (i + 1)
          rw [h1, hxi1] at h2
          simpa using h2
        rw [Option.some.injEq] at hts hts1
        rw [hdur, hts, hts1]
  · intro j fj hj h
    cases hs : List.insertionSort sortLE fs with
    | nil => exact absurd hs (insertionSort_ne_nil fs hne)
    | cons a rest =>
        have heq := normalizeFrames_cons fs a rest hs
        rw [heq] at hj h
        refine assignDurations_lastDuration _ j fj ?_ h
        rw [assignDurations_length] at hj
        exact hj

/-- Witness for C2 at the `[5, 3, 9]` scenario. -/
theorem normalize_spec_witness :
    (normalizeFrames [exF 5 10, exF 3 11, exF 9 12]).length = 3 ∧
    List.Sorted sortLE (normalizeFrames [exF 5 10, exF 3 11, exF 9 12]) := by
  have h := normalize_spec [exF 5 10, exF 3 11, exF 9 12] (by decide) (by decide)
  exact ⟨by simpa using h.1, h.2.1⟩

theorem loadLoop_guard_dead (spec : FrameSpec) :
    ¬jsZeroEq (cloudsLength spec.clouds) = true := by
  simp [cloudsLength, jsZeroEq]

theorem issuedFor_length (name tid : String) (total e : Nat) :
    ∀ (specs : List FrameSpec) (index : Nat),
      (∀ p ∈ specs, (p.clouds.lookup tid).isSome = true) →
      (issuedFor name tid total e specs index).length = specs.length
  | [], _, _ => rfl
  | spec :: rest, index, hty => by
      obtain ⟨path, hpath⟩ := Option.isSome_iff_exists.mp
        (hty spec (List.mem_cons_self spec rest))
      rw [issuedFor, hpath]
      simp only [List.length_cons]
      rw [issuedFor_length name tid total e rest (index + 1)
        (fun p hp => hty p (List.mem_cons_of_mem spec hp))]

theorem issuedFor_meta (name tid : String) (total e : Nat) :
    ∀ (specs : List FrameSpec) (index : Nat) (m : Meta),
      m ∈ (issuedFor name tid total e specs index).map (fun r => r.2) →
      m.event_identifier = e ∧ m.num_frames = total
  | [], _, _, h => by simp [issuedFor] at h
  | spec :: rest, index, m, h => by
      rw [issuedFor] at h
      cases hpath : spec.clouds.lookup tid with
      | none => rw [hpath] at h; simp at h
      | some path =>
          rw [hpath] at h
          simp only [List.map_cons, List.mem_cons] at h
          rcases h with h | h
          · subst h; exact ⟨rfl, rfl⟩
          · exact issuedFor_meta name tid total e rest (index + 1) m (by simpa using h)

theorem issuedFor_tsNum (name tid : String) (total e : Nat) :
    ∀ (specs : List FrameSpec) (index : Nat),
      (∀ p ∈ specs, (p.timestamp).isNum = true) →
      ∀ m ∈ (issuedFor name tid total e specs index).map (fun r => r.2),
        m.timestamp.isNum = true
  | [], _, _, m, h => by simp [issuedFor] at h
  | spec :: rest, index, hnum, m, h => by
      rw [issuedFor] at h
      cases hpath : spec.clouds.lookup tid with
      | none => rw [hpath] at h; simp at h
      | some path =>
          rw [hpath] at h
          simp only [List.map_cons, List.mem_cons] at h
          rcases h with h | h
          · subst h; exact hnum spec (List.mem_cons_self spec rest)
          · exact issuedFor_tsNum name tid total e rest (index + 1)
              (fun p hp => hnum p (List.mem_cons_of_mem spec hp)) m (by simpa using h)

theorem loadLoop_complete (name tid : String) (total : Nat) :
    ∀ (specs : List FrameSpec) (index : Nat) (s : PlayerState)
      (acc : List (String × Meta)),
      (∀ p ∈ specs, (p.clouds.lookup tid).isSome = true) →
      ∃ L : List String,
        loadLoop name tid total specs index s acc =
          ⟨{ s with status_log := L },
           acc ++ issuedFor name tid total s.event_identifier specs index, false⟩
  | [], index, s, acc, _ => by
      refine ⟨s.status_log, ?_⟩
      rw [loadLoop, issuedFor]
      simp
  | spec :: rest, index, s, acc, hty => by
      obtain ⟨path, hpath⟩ := Option.isSome_iff_exists.mp
        (hty spec (List.mem_cons_self spec rest))
      obtain ⟨L, hL⟩ := loadLoop_complete name tid total rest (index + 1)
        (status s ("Loading point clouds..."))
        (acc ++ [("pointclouds/" ++ path,
          { event_identifier := s.event_identifier, scene := some name
            index := some index, num_frames := total
            timestamp := spec.timestamp, path := some path })])
        (fun p hp => hty p (List.mem_cons_of_mem spec hp))
      refine ⟨L, ?_⟩
      rw [loadLoop, if_neg (loadLoop_guard_dead spec), hpath]
      dsimp only
      rw [hL, issuedFor, hpath]
      simp [status, List.append_assoc]

theorem pointCloudLoaded_fresh_push (points : Nat) (meta : Meta) (s : PlayerState)
    (hid : meta.event_identifier = s.event_identifier)
    (hlen : s.frames.length + 1 ≠ meta.num_frames) :
    pointCloudLoaded points meta s =
      { s with
        frames := s.frames ++ [mkFrameOf (points, meta)]
        status_log := s.status_log ++
          [("Loaded " ++ toString (s.frames ++ [mkFrameOf (points, meta)]).length
             ++ " frames of " ++ toString meta.num_frames ++ ".")] } := by
  unfold pointCloudLoaded
  rw [if_neg (by simp [hid])]
  simp only [status]
  rw [if_neg (by simpa using hlen)]
  rfl

theorem pointCloudLoaded_fresh_complete (points : Nat) (meta : Meta) (s : PlayerState)
    (hid : meta.event_identifier = s.event_identifier)
    (hlen : s.frames.length + 1 = meta.num_frames) :
    pointCloudLoaded points meta s =
      nextFrame { s with
        frames := normalizeFrames (s.frames ++ [mkFrameOf (points, meta)])
        current_frame := some (-1)
        loaded := true
        status_log := (s.status_log ++
          [("Loaded " ++ toString (s.frames ++ [mkFrameOf (points, meta)]).length
             ++ " frames of " ++ toString meta.num_frames ++ ".")]) ++ [("Ready.")] } := by
  unfold pointCloudLoaded
  rw [if_neg (by simp [hid])]
  simp only [status]
  rw [if_pos (by simpa using hlen)]
  rfl

theorem deliver_run (N : Nat) :
    ∀ (rs : List (Nat × Meta)) (s : PlayerState), rs ≠ [] →
      (∀ r ∈ rs, r.2.event_identifier = s.event_identifier ∧ r.2.num_frames = N) →
      s.loaded = false → s.current_frame = none →
      s.frames.length + rs.length = N →
      ∃ L : List String,
        deliver rs s =
          nextFrame { s with
            frames := normalizeFrames (s.frames ++ rs.map mkFrameOf)
            current_frame := some (-1)
            loaded := true
            status_log := L } := by
  intro rs
  induction rs with
  | nil => intro s h; exact absurd rfl h
  | cons r rest ih =>
      intro s _ hmeta hld hcur hlen
      have hid : r.2.event_identifier = s.event_identifier :=
        (hmeta r (List.mem_cons_self r rest)).1
      have hnf : r.2.num_frames = N := (hmeta r (List.mem_cons_self r rest)).2
      have hstep : deliver (r :: rest) s = deliver rest (pointCloudLoaded r.1 r.2 s) := rfl
      cases rest with
      | nil =>
          have hc : s.frames.length + 1 = r.2.num_frames := by
            rw [hnf]
            simpa using hlen
          refine ⟨(s.status_log ++
            [("Loaded " ++ toString (s.frames ++ [mkFrameOf (r.1, r.2)]).length
               ++ " frames of " ++ toString r.2.num_frames ++ ".")]) ++ [("Ready.")], ?_⟩
          rw [hstep]
          show pointCloudLoaded r.1 r.2 s = _
          rw [pointCloudLoaded_fresh_complete r.1 r.2 s hid hc]
          rfl
      | cons r2 rest2 =>
          have hne2 : s.frames.length + 1 ≠ r.2.num_frames := by
            rw [hnf]
            simp only [List.length_cons] at hlen
            omega
          have hpcl := pointCloudLoaded_fresh_push r.1 r.2 s hid hne2
          have hmeta2 : ∀ r3 ∈ r2 :: rest2,
              r3.2.event_identifier = (pointCloudLoaded r.1 r.2 s).event_identifier ∧
              r3.2.num_frames = N := by
            intro r3 h3
            rw [pointCloudLoaded_event_identifier]
            exact hmeta r3 (List.mem_cons_of_mem r h3)
          have hld2 : (pointCloudLoaded r.1 r.2 s).loaded = false := by
            rw [hpcl]
            exact hld
          have hcur2 : (pointCloudLoaded r.1 r.2 s).current_frame = none := by
            rw [hpcl]
            exact hcur
          have hlen2 : (pointCloudLoaded r.1 r.2 s).frames.length + (r2 :: rest2).length = N := by
            rw [hpcl]
            simp only [List.length_append, List.length_cons, List.length_nil] at hlen ⊢
            omega
          obtain ⟨L, hL⟩ := ih (pointCloudLoaded r.1 r.2 s) (by simp) hmeta2 hld2 hcur2 hlen2
          refine ⟨L, ?_⟩
          rw [hstep, hL]
          have hrec : ({ (pointCloudLoaded r.1 r.2 s) with
              frames := normalizeFrames
                ((pointCloudLoaded r.1 r.2 s).frames ++ (r2 :: rest2).map mkFrameOf)
              current_frame := some (-1)
              loaded := true
              status_log := L } : PlayerState) =
            { s with
              frames := normalizeFrames (s.frames ++ ((r :: r2 :: rest2).map mkFrameOf))
              current_frame := some (-1)
              loaded := true
              status_log := L } := by
            rw [hpcl]
            simp [List.append_assoc]
          rw [hrec]

theorem deliver_incomplete (N : Nat) :
    ∀ (rs : List (Nat × Meta)) (s : PlayerState),
      (∀ r ∈ rs, r.2.num_frames = N) → s.loaded = false →
      s.frames.length + rs.length < N → (deliver rs s).loaded = false := by
  intro rs
  induction rs with
  | nil => intro s _ hld _; exact hld
  | cons r rest ih =>
      intro s hmeta hld hlen
      have hstep : deliver (r :: rest) s = deliver rest (pointCloudLoaded r.1 r.2 s) := rfl
      rw [hstep]
      by_cases hid : r.2.event_identifier = s.event_identifier
      · have hne2 : s.frames.length + 1 ≠ r.2.num_frames := by
          rw [hmeta r (List.mem_cons_self r rest)]
          simp only [List.length_cons] at hlen
          omega
        rw [pointCloudLoaded_fresh_push r.1 r.2 s hid hne2]
        apply ih
        · intro r2 h2
          exact hmeta r2 (List.mem_cons_of_mem r h2)
        · exact hld
        · simp only [List.length_append, List.length_cons, List.length_nil]
          simp only [List.length_cons] at hlen
          omega
      · rw [pointCloudLoaded_stale s r.1 r.2 hid]
        apply ih
        · intro r2 h2
          exact hmeta r2 (List.mem_cons_of_mem r h2)
        · exact hld
        · simp only [List.length_cons] at hlen
          omega

theorem showCurrentFrame_displayed (s : PlayerState) (i : Int)
    (hc : s.current_frame = some i) :
    (showCurrentFrame s).displayed = some ((s.frames.getD i.toNat default).points) := by
  simp [showCurrentFrame, hc, status]

theorem nextFrame_complete (s : PlayerState) (hc : s.current_frame = some (-1))
    (hl : s.loaded = true) :
    nextFrame s = showCurrentFrame { s with current_frame := some 0 } := by
  have h01 : (-1 + 1 : Int) = 0 := by norm_num
  simp [nextFrame, hc, hl, h01, Int.zero_tmod]

/-- C5. After a scene load with at least one frame spec whose requested
type is present everywhere and whose timestamps are numeric, delivering all
issued results (in any order) with their matching session tags leaves the
player loaded with as many frames as specs, current index 0, and the
chronologically earliest frame displayed. -/
theorem scene_load_completion (name tid : String) (specs : List FrameSpec)
    (s : PlayerState) (rs : List (Nat × Meta))
    (hne : specs ≠ [])
    (hty : ∀ p ∈ specs, (p.clouds.lookup tid).isSome = true)
    (hnum : ∀ p ∈ specs, (p.timestamp).isNum = true)
    (hperm : List.Perm (rs.map (fun r => r.2))
      ((loadPointClouds name specs tid s).issued.map (fun r => r.2))) :
    (deliver rs (loadPointClouds name specs tid s).state).loaded = true ∧
    (deliver rs (loadPointClouds name specs tid s).state).frames.length = specs.length ∧
    (deliver rs (loadPointClouds name specs tid s).state).current_frame = some 0 ∧
    (∃ f0 : Frame,
      (deliver rs (loadPointClouds name specs tid s).state).frames.head? = some f0 ∧
      (deliver rs (loadPointClouds name specs tid s).state).displayed = some f0.points ∧
      ∀ f ∈ (deliver rs (loadPointClouds name specs tid s).state).frames, sortLE f0 f) := by
  have hN0 : specs.length ≠ 0 := fun h => hne (List.eq_nil_of_length_eq_zero h)
  obtain ⟨L0, hLL⟩ := loadLoop_complete name tid specs.length specs 0
      (reset (status s ("Loading point clouds."))) [] hty
  rw [List.nil_append] at hLL
  have hout : loadPointClouds name specs tid s =
      ⟨{ reset (status s ("Loading point clouds.")) with status_log := L0 },
        issuedFor name tid specs.length
          (reset (status s ("Loading point clouds."))).event_identifier specs 0,
        false⟩ := by
    rw [loadPointClouds]
    dsimp only
    rw [if_neg hN0]
    exact hLL
  rw [hout] at hperm ⊢
  dsimp only at hperm ⊢
  have hIlen : (issuedFor name tid specs.length
      (reset (status s ("Loading point clouds."))).event_identifier specs 0).length =
      specs.length := issuedFor_length name tid specs.length _ specs 0 hty
  have hrslen : rs.length = specs.length := by
    have h := hperm.length_eq
    simp only [List.length_map] at h
    rw [h, hIlen]
  have hrsne : rs ≠ [] := by
    intro h
    rw [h] at hrslen
    simp at hrslen
    exact hN0 hrslen.symm
  have hmetas : ∀ r ∈ rs,
      r.2.event_identifier =
        ({ reset (status s ("Loading point clouds.")) with
            status_log := L0 } : PlayerState).event_identifier ∧
      r.2.num_frames = specs.length := by
    intro r hr
    have hmem : r.2 ∈ (issuedFor name tid specs.length
        (reset (status s ("Loading point clouds."))).event_identifier specs 0).map
          (fun x => x.2) :=
      hperm.subset (List.mem_map_of_mem _ hr)
    exact issuedFor_meta name tid specs.length _ specs 0 r.2 hmem
  obtain ⟨L2, hD⟩ := deliver_run specs.length rs
      ({ reset (status s ("Loading point clouds.")) with status_log := L0 })
      hrsne hmetas rfl rfl
      (by
        show 0 + rs.length = specs.length
        simpa using hrslen)
  have hnumF : ∀ fr ∈ rs.map mkFrameOf, fr.timestamp.isNum = true := by
    intro fr hfr
    obtain ⟨r, hr, hfr2⟩ := List.mem_map.mp hfr
    have hmem : r.2 ∈ (issuedFor name tid specs.length
        (reset (status s ("Loading point clouds."))).event_identifier specs 0).map
          (fun x => x.2) :=
      hperm.subset (List.mem_map_of_mem _ hr)
    rw [← hfr2]
    exact issuedFor_tsNum name tid specs.length _ specs 0 hnum r.2 hmem
  have hsorted := sorted_normalizeFrames (rs.map mkFrameOf) hnumF
  have hlenF : (normalizeFrames (rs.map mkFrameOf)).length = specs.length := by
    rw [length_normalizeFrames, List.length_map, hrslen]
  have hfr : (({ reset (status s ("Loading point clouds.")) with
      status_log := L0 } : PlayerState)).frames = [] := rfl
  rw [hfr, List.nil_append] at hD
  cases hFC : normalizeFrames (rs.map mkFrameOf) with
  | nil =>
      rw [hFC] at hlenF
      simp at hlenF
      exact absurd hlenF.symm hN0
  | cons f0 t =>
      rw [hFC] at hD hsorted hlenF
      rw [hD, nextFrame_complete _ rfl rfl]
      refine ⟨?_, ?_, ?_, f0, ?_, ?_, ?_⟩
      · rw [showCurrentFrame_loaded]
      · rw [showCurrentFrame_frames]
        exact hlenF
      · rw [showCurrentFrame_current_frame]
      · rw [showCurrentFrame_frames]
        rfl
      · rw [showCurrentFrame_displayed _ 0 rfl]
        rfl
      · intro f hf
        rw [showCurrentFrame_frames] at hf
        have hf2 : f ∈ f0 :: t := hf
        rcases List.mem_cons.mp hf2 with rfl | hf3
        · exact sortLE_refl f
        · exact List.rel_of_sorted_cons hsorted f hf3

/-- Witness for C5 at the example scene delivered in the issued order. -/
theorem scene_load_completion_witness :
    (deliver ((loadPointClouds ("sc") demoSpecs ("color") initialState).issued.map
        (fun r => (7, r.2)))
      (loadPointClouds ("sc") demoSpecs ("color") initialState).state).loaded = true ∧
    (deliver ((loadPointClouds ("sc") demoSpecs ("color") initialState).issued.map
        (fun r => (7, r.2)))
      (loadPointClouds ("sc") demoSpecs ("color") initialState).state).frames.length =
      demoSpecs.length ∧
    (deliver ((loadPointClouds ("sc") demoSpecs ("color") initialState).issued.map
        (fun r => (7, r.2)))
      (loadPointClouds ("sc") demoSpecs ("color") initialState).state).current_frame =
      some 0 ∧
    (∃ f0 : Frame,
      (deliver ((loadPointClouds ("sc") demoSpecs ("color") initialState).issued.map
          (fun r => (7, r.2)))
        (loadPointClouds ("sc") demoSpecs ("color") initialState).state).frames.head? =
        some f0 ∧
      (deliver ((loadPointClouds ("sc") demoSpecs ("color") initialState).issued.map
          (fun r => (7, r.2)))
        (loadPointClouds ("sc") demoSpecs ("color") initialState).state).displayed =
        some f0.points ∧
      ∀ f ∈ (deliver ((loadPointClouds ("sc") demoSpecs ("color") initialState).issued.map
          (fun r => (7, r.2)))
        (loadPointClouds ("sc") demoSpecs ("color") initialState).state).frames,
        sortLE f0 f) := by
  have h := scene_load_completion ("sc") ("color") demoSpecs initialState
    ((loadPointClouds ("sc") demoSpecs ("color") initialState).issued.map
      (fun r => (7, r.2)))
    (by decide) (by decide) (by decide)
    (by
      rw [List.map_map]
      exact List.Perm.refl _)
  exact h

/-- C6, evaluated at the failing input: a scene whose only frame has zero
clouds (an empty type-to-path mapping).  The claim — and the dead branch's
own status string — say the condition is reported via
"No clouds in frame." and the load aborts cleanly; but `clouds.length` on
the mapping is `undefined`, `0 == undefined` is false, so the check never
fires and the call instead throws a `TypeError` at `cloud["path"]` without
reporting anything (the player does stay unloaded). -/
theorem zero_clouds_throws :
    (loadPointClouds ("s")
        [{ timestamp := JSNum.num 5, clouds := [] }] ("color")
        initialState).threw = true ∧
    ("No clouds in frame." ∉
      (loadPointClouds ("s")
          [{ timestamp := JSNum.num 5, clouds := [] }] ("color")
          initialState).state.status_log) ∧
    (loadPointClouds ("s")
        [{ timestamp := JSNum.num 5, clouds := [] }] ("color")
        initialState).issued = [] ∧
    (loadPointClouds ("s")
        [{ timestamp := JSNum.num 5, clouds := [] }] ("color")
        initialState).state.loaded = false := by
  decide


theorem inv_of_fields {s t : PlayerState} (hc : t.current_frame = s.current_frame)
    (hl : t.loaded = s.loaded) (hf : t.frames.length = s.frames.length)
    (hp : t.is_playing = s.is_playing) (h : Inv s) : Inv t := by
  unfold Inv at h ⊢
  rw [hc, hl, hp, hf]
  exact h

theorem inv_intro (t : PlayerState)
    (h1 : ∀ i : Int, t.current_frame = some i →
        t.loaded = true ∧ 0 ≤ i ∧ i < (t.frames.length : Int))
    (h2 : t.is_playing = true → t.loaded = true ∧ 2 ≤ t.frames.length) : Inv t := by
  refine ⟨?_, h2⟩
  cases hc : t.current_frame with
  | none => exact trivial
  | some i => exact h1 i hc

theorem inv_pause (s : PlayerState) (h : Inv s) : Inv (pause s) :=
  ⟨h.1, fun hh => nomatch hh⟩

theorem inv_reset (s : PlayerState) : Inv (reset s) :=
  ⟨trivial, fun hh => nomatch hh⟩

theorem inv_status (s : PlayerState) (text : String) (h : Inv s) : Inv (status s text) :=
  inv_of_fields rfl rfl rfl rfl h

theorem inv_showCurrentFrame (s : PlayerState) (h : Inv s) : Inv (showCurrentFrame s) :=
  inv_of_fields (showCurrentFrame_current_frame s) (showCurrentFrame_loaded s)
    (by rw [showCurrentFrame_frames]) (showCurrentFrame_is_playing s) h

theorem inv_createNextFrameTimer (s : PlayerState) (h : Inv s) :
    Inv (createNextFrameTimer s) :=
  inv_of_fields rfl rfl rfl rfl h

theorem inv_current_bounds {s : PlayerState} {i : Int} (h : Inv s)
    (hc : s.current_frame = some i) :
    s.loaded = true ∧ 0 ≤ i ∧ i < (s.frames.length : Int) := by
  have h1 := h.1
  rw [hc] at h1
  exact h1

theorem inv_nextFrame (s : PlayerState) (h : Inv s) : Inv (nextFrame s) := by
  cases hc : s.current_frame with
  | none =>
      have heq : nextFrame s = s := by simp [nextFrame, hc]
      rw [heq]
      exact h
  | some i =>
      cases hl : s.loaded with
      | false =>
          have heq : nextFrame s = s := by simp [nextFrame, hc, hl]
          rw [heq]
          exact h
      | true =>
          obtain ⟨_, h0, hi⟩ := inv_current_bounds h hc
          have hNpos : (0 : Int) < (s.frames.length : Int) := lt_of_le_of_lt h0 hi
          have heq : nextFrame s = showCurrentFrame
              { s with current_frame := some (Int.tmod (i + 1) s.frames.length) } := by
            simp [nextFrame, hc, hl]
          rw [heq]
          apply inv_showCurrentFrame
          refine ⟨?_, fun hp => h.2 hp⟩
          show (match (some (Int.tmod (i + 1) s.frames.length) : Option Int) with
            | none => True
            | some j => s.loaded = true ∧ 0 ≤ j ∧ j < (s.frames.length : Int))
          refine ⟨hl, Int.tmod_nonneg _ (by omega), Int.tmod_lt_of_pos _ hNpos⟩

theorem inv_previousFrame (s : PlayerState) (h : Inv s) : Inv (previousFrame s) := by
  cases hc : s.current_frame with
  | none =>
      have heq : previousFrame s = s := by simp [previousFrame, hc]
      rw [heq]
      exact h
  | some i =>
      cases hl : s.loaded with
      | false =>
          have heq : previousFrame s = s := by simp [previousFrame, hc, hl]
          rw [heq]
          exact h
      | true =>
          obtain ⟨_, h0, hi⟩ := inv_current_bounds h hc
          have hNpos : (0 : Int) < (s.frames.length : Int) := lt_of_le_of_lt h0 hi
          have heq : previousFrame s = showCurrentFrame
              { s with current_frame := some (Int.tmod ((s.frames.length : Int) + i - 1) s.frames.length) } := by
            simp [previousFrame, hc, hl]
          rw [heq]
          apply inv_showCurrentFrame
          refine ⟨?_, fun hp => h.2 hp⟩
          show (match (some (Int.tmod ((s.frames.length : Int) + i - 1) s.frames.length) :
              Option Int) with
            | none => True
            | some j => s.loaded = true ∧ 0 ≤ j ∧ j < (s.frames.length : Int))
          refine ⟨hl, Int.tmod_nonneg _ (by omega), Int.tmod_lt_of_pos _ hNpos⟩

theorem inv_play (s : PlayerState) (h : Inv s) : Inv (play s).2 := by
  by_cases h2 : s.frames.length < 2
  · rw [play_noop s (Or.inl h2)]
    exact h
  · cases hl : s.loaded with
    | false =>
        rw [play_noop s (Or.inr hl)]
        exact h
    | true =>
        cases hp : s.is_playing with
        | true =>
            rw [play_stop s hl (by omega) hp]
            exact inv_pause s h
        | false =>
            rw [play_start s hl (by omega) hp]
            apply inv_createNextFrameTimer
            refine ⟨h.1, fun _ => ⟨hl, ?_⟩⟩
            show 2 ≤ s.frames.length
            omega

theorem inv_playNextFrameCallback (s : PlayerState) (h : Inv s) :
    Inv (playNextFrameCallback s) := by
  unfold playNextFrameCallback
  split
  · exact h
  · exact inv_createNextFrameTimer _ (inv_nextFrame s h)

theorem inv_fireTimer (s : PlayerState) (h : Inv s) : Inv (fireTimer s) := by
  unfold fireTimer
  split
  · exact h
  · exact inv_playNextFrameCallback _ (inv_of_fields rfl rfl rfl rfl h)

theorem inv_pointCloudLoaded (points : Nat) (meta : Meta) (s : PlayerState)
    (h : Inv s) : Inv (pointCloudLoaded points meta s) := by
  by_cases hid : meta.event_identifier = s.event_identifier
  · by_cases hlen : s.frames.length + 1 = meta.num_frames
    · rw [pointCloudLoaded_fresh_complete points meta s hid hlen]
      rw [nextFrame_complete _ rfl rfl]
      apply inv_showCurrentFrame
      apply inv_intro
      · intro i hc2
        have hc3 : some (0 : Int) = some i := hc2
        injection hc3 with hc4
        subst hc4
        refine ⟨rfl, le_refl 0, ?_⟩
        show (0 : Int) <
          ((normalizeFrames (s.frames ++ [mkFrameOf (points, meta)])).length : Int)
        rw [length_normalizeFrames]
        simp only [List.length_append, List.length_cons, List.length_nil]
        push_cast
        omega
      · intro hp
        have hp2 := h.2 hp
        refine ⟨rfl, ?_⟩
        show 2 ≤ (normalizeFrames (s.frames ++ [mkFrameOf (points, meta)])).length
        rw [length_normalizeFrames]
        simp only [List.length_append, List.length_cons, List.length_nil]
        omega
    · rw [pointCloudLoaded_fresh_push points meta s hid hlen]
      apply inv_intro
      · intro i hc2
        have hc : s.current_frame = some i := hc2
        obtain ⟨hl2, h0, hi⟩ := inv_current_bounds h hc
        refine ⟨hl2, h0, ?_⟩
        show (i : Int) < ((s.frames ++ [mkFrameOf (points, meta)]).length : Int)
        simp only [List.length_append, List.length_cons, List.length_nil]
        push_cast
        omega
      · intro hp
        have hp2 := h.2 hp
        refine ⟨hp2.1, ?_⟩
        show 2 ≤ (s.frames ++ [mkFrameOf (points, meta)]).length
        simp only [List.length_append, List.length_cons, List.length_nil]
        omega
  · rw [pointCloudLoaded_stale s points meta hid]
    exact h

theorem loadLoop_state_fields (name tid : String) (total : Nat) :
    ∀ (specs : List FrameSpec) (index : Nat) (s : PlayerState)
      (acc : List (String × Meta)),
      ∃ L : List String,
        (loadLoop name tid total specs index s acc).state = { s with status_log := L }
  | [], _, s, _ => ⟨s.status_log, rfl⟩
  | spec :: rest, index, s, acc => by
      rw [loadLoop, if_neg (loadLoop_guard_dead spec)]
      cases hpath : spec.clouds.lookup tid with
      | none => exact ⟨s.status_log, rfl⟩
      | some path =>
          obtain ⟨L, hL⟩ := loadLoop_state_fields name tid total rest (index + 1)
            (status s ("Loading point clouds..."))
            (acc ++ [("pointclouds/" ++ path,
              { event_identifier := s.event_identifier, scene := some name
                index := some index, num_frames := total
                timestamp := spec.timestamp, path := some path })])
          exact ⟨L, hL⟩

theorem inv_loadPointClouds (name : String) (specs : List FrameSpec) (tid : String)
    (s : PlayerState) : Inv (loadPointClouds name specs tid s).state := by
  rw [loadPointClouds]
  split
  · exact inv_status _ _ (inv_reset _)
  · obtain ⟨L, hL⟩ := loadLoop_state_fields name tid specs.length specs 0
      (reset (status s ("Loading point clouds."))) []
    rw [hL]
    exact inv_of_fields rfl rfl rfl rfl
      (inv_reset (status s ("Loading point clouds.")))

/-- C9. Every player operation preserves the state invariants: a defined
current index implies `loaded` and lies in `[0, frames.length)`, and
`is_playing` implies `loaded` with at least two frames. -/
theorem step_preserves_inv (e : PEvent) (s : PlayerState) (h : Inv s) :
    Inv (step e s) := by
  cases e with
  | playE => exact inv_play s h
  | pauseE => exact inv_pause s h
  | nextE => exact inv_nextFrame s h
  | prevE => exact inv_previousFrame s h
  | fireE => exact inv_fireTimer s h
  | resetE => exact inv_reset s
  | loadCloudsE name specs tid => exact inv_loadPointClouds name specs tid s
  | loadSingleE path => exact inv_reset s
  | cloudLoadedE points meta => exact inv_pointCloudLoaded points meta s h

/-- Witness for C9: the invariant holds in the initial state and is kept by
a `play` command there. -/
theorem step_preserves_inv_witness :
    Inv initialState ∧ Inv (step PEvent.playE initialState) :=
  have h0 : Inv initialState := ⟨trivial, fun hh => nomatch hh⟩
  ⟨h0, step_preserves_inv PEvent.playE initialState h0⟩

end PointCloud
